import Mathlib

/-!
# DisplacementFilter (src/filters/DisplacementFilter.js)

A shallow embedding of the displacement filter: the fragment shader's
coordinate computation and the per-frame uniform bookkeeping of the
`DisplacementFilter` class.

Numbers are elements of a linearly ordered field `F` (exact arithmetic); the
theorems about square roots are stated over `ℝ` with `Real.sqrt` standing for
`Math.sqrt`.  The host engine's `calculateSpriteMatrix` and `Math.sqrt` enter
`apply` as parameters.
-/

set_option autoImplicit false

/-! ## GLSL values -/

namespace GLSL

/-- GLSL `vec2`. -/
@[ext] structure Vec2 (F : Type) where
  x : F
  y : F

/-- GLSL `vec4`; the colour accessors `r g b a` are the components `x y z w`. -/
@[ext] structure Vec4 (F : Type) where
  x : F
  y : F
  z : F
  w : F

/-- GLSL `mat2` as the flat array of four floats the uniform is uploaded from:
entries `0, 1` are the first column, entries `2, 3` the second. -/
@[ext] structure Mat2 (F : Type) where
  m0 : F
  m1 : F
  m2 : F
  m3 : F

variable {F : Type} [LinearOrderedField F]

/-- The product `mat2 * vec2` (column-major matrix). -/
def Mat2.mulVec (m : Mat2 F) (v : Vec2 F) : Vec2 F :=
  ⟨m.m0 * v.x + m.m2 * v.y, m.m1 * v.x + m.m3 * v.y⟩

/-- GLSL `clamp(x, minVal, maxVal)`, which is `min(max(x, minVal), maxVal)`. -/
def clamp (x minVal maxVal : F) : F :=
  min (max x minVal) maxVal

end GLSL

/-! ## The fragment shader -/

namespace Fragment

open GLSL

variable {F : Type} [LinearOrderedField F]

/-- Line 53, `map -= 0.5;` on a `vec4`. -/
def centre (map : Vec4 F) : Vec4 F :=
  ⟨map.x - 0.5, map.y - 0.5, map.z - 0.5, map.w - 0.5⟩

/-- Line 57, `float coeff = min(1.0, night.r * 5.0);`. -/
def coeff (night : Vec4 F) : F :=
  min 1.0 (night.x * 5.0)

/-- Line 58, the right-hand side
`scale * inputSize.zw * (rotation * map.xy) * (1.0 - coeff)`,
where `m` is `map.xy` (already centred) and `c` is `coeff`. -/
def offset (scale : Vec2 F) (inputSize : Vec4 F) (rotation : Mat2 F) (m : Vec2 F) (c : F) :
    Vec2 F :=
  let rv := rotation.mulVec m
  ⟨scale.x * inputSize.z * rv.x * (1.0 - c), scale.y * inputSize.w * rv.y * (1.0 - c)⟩

/-- Lines 53-58: the value of `map.xy` after line 58, from the raw displacement-map
sample and the night sample. -/
def displacement (scale : Vec2 F) (inputSize : Vec4 F) (rotation : Mat2 F)
    (mapSample night : Vec4 F) : Vec2 F :=
  let map := centre mapSample
  offset scale inputSize rotation ⟨map.x, map.y⟩ (coeff night)

/-- Line 61, the coordinate at which `uSampler` is read:
`clamp(vec2(vTextureCoord.x + map.x, vTextureCoord.y + map.y), inputClamp.xy, inputClamp.zw)`. -/
def sampleCoord (scale : Vec2 F) (inputSize inputClamp : Vec4 F) (rotation : Mat2 F)
    (mapSample night : Vec4 F) (vTextureCoord : Vec2 F) : Vec2 F :=
  let map := displacement scale inputSize rotation mapSample night
  ⟨clamp (vTextureCoord.x + map.x) inputClamp.x inputClamp.z,
   clamp (vTextureCoord.y + map.y) inputClamp.y inputClamp.w⟩

/-- The fragment shader's `main`: the value written to `gl_FragColor`.  The three
samplers are functions from a coordinate to a colour. -/
def main (uSampler mapSampler nightTexture : Vec2 F → Vec4 F)
    (scale : Vec2 F) (rotation : Mat2 F) (inputSize inputClamp : Vec4 F)
    (vFilterCoord vTextureCoord : Vec2 F) : Vec4 F :=
  uSampler (sampleCoord scale inputSize inputClamp rotation
    (mapSampler vFilterCoord) (nightTexture vTextureCoord) vTextureCoord)

end Fragment

/-! ## Host objects -/

namespace PIXI

/-- The host's `PIXI.Matrix`, fields `a b c d tx ty`. -/
@[ext] structure Matrix (F : Type) where
  a : F
  b : F
  c : F
  d : F
  tx : F
  ty : F

/-- The value of `new PIXI.Matrix()`: the identity. -/
def Matrix.identity {F : Type} [LinearOrderedField F] : Matrix F :=
  ⟨1, 0, 0, 1, 0, 0⟩

/-- The host's `PIXI.Point`, also the shape of the `{ x, y }` scale uniform. -/
@[ext] structure Point (F : Type) where
  x : F
  y : F

/-- The fields of a `PIXI.Sprite` that the filter touches; `worldTransform` is
`sprite.transform.worldTransform`. -/
structure Sprite (F Tex : Type) where
  renderable : Bool
  _texture : Tex
  worldTransform : Matrix F

end PIXI

/-! ## The filter class -/

open GLSL PIXI

/-- The uniform bag handed to `super(vertex, fragment, { ... })`. -/
structure Uniforms (F Tex : Type) where
  mapSampler : Tex
  filterMatrix : Matrix F
  scale : Point F
  rotation : Mat2 F

/-- The arguments JavaScript can pass for the optional `scale` parameter. -/
inductive ScaleArg (F : Type) where
  | undefined : ScaleArg F
  | null : ScaleArg F
  | number (s : F) : ScaleArg F

/-- An instance of the class `DisplacementFilter`.  `maskSprite` is the referenced
sprite object in its current state. -/
structure DisplacementFilter (F Tex : Type) where
  uniforms : Uniforms F Tex
  maskSprite : Sprite F Tex
  maskMatrix : Matrix F
  scale : Point F

namespace DisplacementFilter

variable {F : Type} [LinearOrderedField F] {Tex : Type}

/-- Lines 70-94, `constructor(sprite, scale)`.  The sprite with `renderable`
cleared is the `maskSprite` of the result. -/
def constructor (sprite : Sprite F Tex) (scale : ScaleArg F) : DisplacementFilter F Tex :=
  let maskMatrix : Matrix F := Matrix.identity
  let sprite : Sprite F Tex := { sprite with renderable := false }
  let uniforms : Uniforms F Tex :=
    { mapSampler := sprite._texture
      filterMatrix := maskMatrix
      scale := ⟨1, 1⟩
      rotation := ⟨1, 0, 0, 1⟩ }
  let scale : F :=
    match scale with
    | ScaleArg.null => 20
    | ScaleArg.undefined => 20
    | ScaleArg.number s => s
  { uniforms := uniforms
    maskSprite := sprite
    maskMatrix := maskMatrix
    scale := ⟨scale, scale⟩ }

/-- Lines 115-116 and 119-122: the four quotients assigned to `uniforms.rotation`
inside the guarded block. -/
def normalizedBasis (sqrt : F → F) (wt : Matrix F) : Mat2 F :=
  let lenX := sqrt (wt.a * wt.a + wt.b * wt.b)
  let lenY := sqrt (wt.c * wt.c + wt.d * wt.d)
  ⟨wt.a / lenX, wt.b / lenX, wt.c / lenY, wt.d / lenY⟩

/-- Lines 114-123: the four values written to `uniforms.rotation`, or `none` when
the guard `lenX !== 0 && lenY !== 0` fails and the block holding the four
divisions is skipped. -/
def extractRotation (sqrt : F → F) (wt : Matrix F) : Option (Mat2 F) :=
  let lenX := sqrt (wt.a * wt.a + wt.b * wt.b)
  let lenY := sqrt (wt.c * wt.c + wt.d * wt.d)
  if lenX ≠ 0 ∧ lenY ≠ 0 then
    some (normalizedBasis sqrt wt)
  else
    none

/-- Lines 104-127, `apply(filterManager, input, output, clear)`: the filter as it is
handed to `filterManager.applyFilter`. -/
def apply (sqrt : F → F) (calculateSpriteMatrix : Matrix F → Sprite F Tex → Matrix F)
    (self : DisplacementFilter F Tex) : DisplacementFilter F Tex :=
  let u1 : Uniforms F Tex :=
    { self.uniforms with
      filterMatrix := calculateSpriteMatrix self.maskMatrix self.maskSprite }
  let u2 : Uniforms F Tex := { u1 with scale := ⟨self.scale.x, self.scale.y⟩ }
  let wt := self.maskSprite.worldTransform
  match extractRotation sqrt wt with
  | some r => { self with uniforms := { u2 with rotation := r } }
  | none => { self with uniforms := u2 }

/-- Lines 134-136, `get map()`. -/
def map (self : DisplacementFilter F Tex) : Tex :=
  self.uniforms.mapSampler

/-- Lines 138-142, `set map(value)`. -/
def setMap (self : DisplacementFilter F Tex) (value : Tex) : DisplacementFilter F Tex :=
  { self with uniforms := { self.uniforms with mapSampler := value } }

/-- The host engine moving the mask sprite between two frames: the sprite's world
transform becomes `wt`, nothing else changes. -/
def withWorldTransform (self : DisplacementFilter F Tex) (wt : Matrix F) :
    DisplacementFilter F Tex :=
  { self with maskSprite := { self.maskSprite with worldTransform := wt } }

end DisplacementFilter

/-! ## Predicates used in the statements -/

/-- Both columns `(m0, m1)` and `(m2, m3)` have Euclidean length one. -/
def UnitColumns {F : Type} [LinearOrderedField F] (r : Mat2 F) : Prop :=
  r.m0 ^ 2 + r.m1 ^ 2 = 1 ∧ r.m2 ^ 2 + r.m3 ^ 2 = 1

/-- A world transform without skew: its two basis vectors are orthogonal. -/
def NoSkew {F : Type} [LinearOrderedField F] (wt : Matrix F) : Prop :=
  wt.a * wt.c + wt.b * wt.d = 0

/-! ## Concrete values used in the examples -/

namespace Example

variable {F : Type} [LinearOrderedField F]

/-- A stand-in for the host's `calculateSpriteMatrix` that hands back the matrix it
is given. -/
def keepMatrix (m : Matrix F) (_sprite : Sprite F Unit) : Matrix F := m

/-- The world transform of a sprite rotated by a quarter turn, scale one. -/
def quarterTurn : Matrix F := ⟨0, 1, -1, 0, 0, 0⟩

/-- The world transform of an unrotated sprite whose horizontal scale is zero. -/
def collapsedX : Matrix F := ⟨0, 0, 0, 1, 0, 0⟩

/-- A world transform with basis vectors `(3, 4)` and `(0, 1)`. -/
def threeFour : Matrix F := ⟨3, 4, 0, 1, 0, 0⟩

/-- A renderable sprite rotated by a quarter turn. -/
def turnedSprite : Sprite F Unit := ⟨true, (), quarterTurn⟩

end Example

/-! ## Auxiliary facts -/

namespace DisplacementFilter

variable {Tex : Type}

theorem sqrt_ne_zero_of_ne_zero {x : ℝ} (h0 : 0 ≤ x) (h : x ≠ 0) : Real.sqrt x ≠ 0 := by
  have hpos : 0 < x := lt_of_le_of_ne h0 (Ne.symm h)
  exact (Real.sqrt_pos.mpr hpos).ne.symm

theorem sumsq_nonneg (a b : ℝ) : 0 ≤ a * a + b * b := by nlinarith [mul_self_nonneg a, mul_self_nonneg b]

theorem extractRotation_eq_some (wt : Matrix ℝ)
    (hx : wt.a * wt.a + wt.b * wt.b ≠ 0) (hy : wt.c * wt.c + wt.d * wt.d ≠ 0) :
    extractRotation Real.sqrt wt = some (normalizedBasis Real.sqrt wt) := by
  have h1 := sqrt_ne_zero_of_ne_zero (sumsq_nonneg wt.a wt.b) hx
  have h2 := sqrt_ne_zero_of_ne_zero (sumsq_nonneg wt.c wt.d) hy
  simp only [extractRotation]
  rw [if_pos ⟨h1, h2⟩]

theorem extractRotation_eq_none (wt : Matrix ℝ)
    (h : wt.a * wt.a + wt.b * wt.b = 0 ∨ wt.c * wt.c + wt.d * wt.d = 0) :
    extractRotation Real.sqrt wt = none := by
  simp only [extractRotation]
  rw [if_neg]
  rintro ⟨h1, h2⟩
  rcases h with h | h
  · exact h1 (by rw [h, Real.sqrt_zero])
  · exact h2 (by rw [h, Real.sqrt_zero])

theorem apply_rotation_of_some {F : Type} [LinearOrderedField F] (sqrt : F → F)
    (csm : Matrix F → Sprite F Tex → Matrix F) (st : DisplacementFilter F Tex) (r : Mat2 F)
    (h : extractRotation sqrt st.maskSprite.worldTransform = some r) :
    (apply sqrt csm st).uniforms.rotation = r := by
  simp only [apply, h]

theorem apply_rotation_of_none {F : Type} [LinearOrderedField F] (sqrt : F → F)
    (csm : Matrix F → Sprite F Tex → Matrix F) (st : DisplacementFilter F Tex)
    (h : extractRotation sqrt st.maskSprite.worldTransform = none) :
    (apply sqrt csm st).uniforms.rotation = st.uniforms.rotation := by
  simp only [apply, h]

theorem normalized_pair (a b : ℝ) (h : a * a + b * b ≠ 0) :
    (a / Real.sqrt (a * a + b * b)) ^ 2 + (b / Real.sqrt (a * a + b * b)) ^ 2 = 1 := by
  have h0 := sumsq_nonneg a b
  have hs := sqrt_ne_zero_of_ne_zero h0 h
  have hsq : Real.sqrt (a * a + b * b) ^ 2 = a * a + b * b := Real.sq_sqrt h0
  rw [div_pow, div_pow, hsq, ← add_div, pow_two, pow_two]
  exact div_self h

theorem scaled_sumsq (k a b : ℝ) :
    (k * a) * (k * a) + (k * b) * (k * b) = (k * k) * (a * a + b * b) := by ring

theorem sqrt_scaled_sumsq (k a b : ℝ) (hk : 0 < k) :
    Real.sqrt ((k * a) * (k * a) + (k * b) * (k * b)) = k * Real.sqrt (a * a + b * b) := by
  rw [scaled_sumsq, Real.sqrt_mul (mul_self_nonneg k), Real.sqrt_mul_self hk.le]

theorem rotation_of_nonzero (csm : Matrix ℝ → Sprite ℝ Tex → Matrix ℝ)
    (st : DisplacementFilter ℝ Tex) (wt : Matrix ℝ)
    (hx : wt.a * wt.a + wt.b * wt.b ≠ 0) (hy : wt.c * wt.c + wt.d * wt.d ≠ 0) :
    (apply Real.sqrt csm (st.withWorldTransform wt)).uniforms.rotation
      = normalizedBasis Real.sqrt wt :=
  apply_rotation_of_some Real.sqrt csm (st.withWorldTransform wt) _
    (extractRotation_eq_some wt hx hy)

theorem unitColumns_normalizedBasis (wt : Matrix ℝ)
    (hx : wt.a * wt.a + wt.b * wt.b ≠ 0) (hy : wt.c * wt.c + wt.d * wt.d ≠ 0) :
    UnitColumns (normalizedBasis Real.sqrt wt) :=
  ⟨normalized_pair wt.a wt.b hx, normalized_pair wt.c wt.d hy⟩

/-- Unit-length columns are an invariant of `apply`, for every world transform: a
non-degenerate transform writes normalised columns, a degenerate one keeps the old
ones. -/
theorem apply_preserves_unitColumns (csm : Matrix ℝ → Sprite ℝ Tex → Matrix ℝ)
    (st : DisplacementFilter ℝ Tex) (h : UnitColumns st.uniforms.rotation) :
    UnitColumns (apply Real.sqrt csm st).uniforms.rotation := by
  by_cases hg : st.maskSprite.worldTransform.a * st.maskSprite.worldTransform.a
        + st.maskSprite.worldTransform.b * st.maskSprite.worldTransform.b ≠ 0
      ∧ st.maskSprite.worldTransform.c * st.maskSprite.worldTransform.c
        + st.maskSprite.worldTransform.d * st.maskSprite.worldTransform.d ≠ 0
  · rw [apply_rotation_of_some Real.sqrt csm st _ (extractRotation_eq_some _ hg.1 hg.2)]
    exact unitColumns_normalizedBasis _ hg.1 hg.2
  · rw [apply_rotation_of_none Real.sqrt csm st (extractRotation_eq_none _ (by tauto))]
    exact h

/-- The rotation uniform of a freshly constructed filter has unit-length columns. -/
theorem constructor_unitColumns (sprite : Sprite ℝ Tex) (scale : ScaleArg ℝ) :
    UnitColumns (constructor sprite scale).uniforms.rotation := by
  simp [UnitColumns, constructor]

end DisplacementFilter

/-! ## Rotation extraction in `apply` -/

namespace DisplacementFilter

open Example

variable {Tex : Type}

/-- C1. When either basis vector of the sprite's world transform has zero length
(`a*a + b*b = 0` or `c*c + d*d = 0`), the guard of `apply` fails, so the block with
the four divisions is skipped (`extractRotation` is `none`) and the rotation uniform
after `apply` equals the rotation uniform before it, entry by entry. -/
theorem apply_zero_length_keeps_rotation (csm : Matrix ℝ → Sprite ℝ Tex → Matrix ℝ)
    (st : DisplacementFilter ℝ Tex) (wt : Matrix ℝ)
    (h : wt.a * wt.a + wt.b * wt.b = 0 ∨ wt.c * wt.c + wt.d * wt.d = 0) :
    extractRotation Real.sqrt wt = none ∧
    (apply Real.sqrt csm (st.withWorldTransform wt)).uniforms.rotation.m0
      = st.uniforms.rotation.m0 ∧
    (apply Real.sqrt csm (st.withWorldTransform wt)).uniforms.rotation.m1
      = st.uniforms.rotation.m1 ∧
    (apply Real.sqrt csm (st.withWorldTransform wt)).uniforms.rotation.m2
      = st.uniforms.rotation.m2 ∧
    (apply Real.sqrt csm (st.withWorldTransform wt)).uniforms.rotation.m3
      = st.uniforms.rotation.m3 := by
  have hn := extractRotation_eq_none wt h
  have hr : (apply Real.sqrt csm (st.withWorldTransform wt)).uniforms.rotation
      = st.uniforms.rotation :=
    apply_rotation_of_none Real.sqrt csm (st.withWorldTransform wt) hn
  exact ⟨hn, by rw [hr], by rw [hr], by rw [hr], by rw [hr]⟩

/-- Witness for C1: a freshly built filter whose sprite then collapses horizontally. -/
theorem apply_zero_length_keeps_rotation_witness :
    ((collapsedX : Matrix ℝ).a * (collapsedX : Matrix ℝ).a
        + (collapsedX : Matrix ℝ).b * (collapsedX : Matrix ℝ).b = 0
      ∨ (collapsedX : Matrix ℝ).c * (collapsedX : Matrix ℝ).c
        + (collapsedX : Matrix ℝ).d * (collapsedX : Matrix ℝ).d = 0) ∧
    (apply Real.sqrt keepMatrix
      ((constructor turnedSprite ScaleArg.undefined).withWorldTransform
        collapsedX)).uniforms.rotation.m0 = 1 :=
  ⟨Or.inl (by simp [collapsedX]),
   (apply_zero_length_keeps_rotation keepMatrix
      (constructor turnedSprite ScaleArg.undefined) collapsedX
      (Or.inl (by simp [collapsedX]))).2.1⟩

/-- C2, as amended. For every world transform whose two basis vectors are both
non-zero (skewed or not), the rotation uniform after `apply` is
`[a/lenX, b/lenX, c/lenY, d/lenY]` with `lenX = sqrt(a*a + b*b)` and
`lenY = sqrt(c*c + d*d)`, and each of its two columns has Euclidean length one. -/
theorem apply_rotation_unit_columns (csm : Matrix ℝ → Sprite ℝ Tex → Matrix ℝ)
    (st : DisplacementFilter ℝ Tex) (wt : Matrix ℝ)
    (hx : wt.a * wt.a + wt.b * wt.b ≠ 0) (hy : wt.c * wt.c + wt.d * wt.d ≠ 0) :
    (apply Real.sqrt csm (st.withWorldTransform wt)).uniforms.rotation
      = ⟨wt.a / Real.sqrt (wt.a * wt.a + wt.b * wt.b),
         wt.b / Real.sqrt (wt.a * wt.a + wt.b * wt.b),
         wt.c / Real.sqrt (wt.c * wt.c + wt.d * wt.d),
         wt.d / Real.sqrt (wt.c * wt.c + wt.d * wt.d)⟩ ∧
    (apply Real.sqrt csm (st.withWorldTransform wt)).uniforms.rotation.m0 ^ 2
      + (apply Real.sqrt csm (st.withWorldTransform wt)).uniforms.rotation.m1 ^ 2 = 1 ∧
    (apply Real.sqrt csm (st.withWorldTransform wt)).uniforms.rotation.m2 ^ 2
      + (apply Real.sqrt csm (st.withWorldTransform wt)).uniforms.rotation.m3 ^ 2 = 1 := by
  have hr : (apply Real.sqrt csm (st.withWorldTransform wt)).uniforms.rotation
      = normalizedBasis Real.sqrt wt :=
    apply_rotation_of_some Real.sqrt csm (st.withWorldTransform wt) _
      (extractRotation_eq_some wt hx hy)
  have hu := unitColumns_normalizedBasis wt hx hy
  rw [hr]
  exact ⟨rfl, hu.1, hu.2⟩

/-- Witness for C2: the transform with basis vectors `(3, 4)` and `(0, 1)`. -/
theorem apply_rotation_unit_columns_witness :
    ((threeFour : Matrix ℝ).a * (threeFour : Matrix ℝ).a
      + (threeFour : Matrix ℝ).b * (threeFour : Matrix ℝ).b ≠ 0) ∧
    ((threeFour : Matrix ℝ).c * (threeFour : Matrix ℝ).c
      + (threeFour : Matrix ℝ).d * (threeFour : Matrix ℝ).d ≠ 0) ∧
    (apply Real.sqrt keepMatrix
        ((constructor turnedSprite ScaleArg.undefined).withWorldTransform
          threeFour)).uniforms.rotation.m0 ^ 2
      + (apply Real.sqrt keepMatrix
        ((constructor turnedSprite ScaleArg.undefined).withWorldTransform
          threeFour)).uniforms.rotation.m1 ^ 2 = 1 :=
  ⟨by norm_num [threeFour], by norm_num [threeFour],
   (apply_rotation_unit_columns keepMatrix
      (constructor turnedSprite ScaleArg.undefined) threeFour
      (by norm_num [threeFour]) (by norm_num [threeFour])).2.1⟩

/-- C2 as stated fails. The transform `(a, b, c, d) = (0, 0, 0, 1)` has no skew. A
filter built on a quarter-turned sprite and applied once holds the rotation
`[0, 1, -1, 0]`; when the sprite then collapses to `(0, 0, 0, 1)` the next `apply`
keeps `[0, 1, -1, 0]`, whose second column `(-1, 0)` is not `(c/lenY, d/lenY) = (0, 1)`,
and the quotients `[a/lenX, b/lenX, c/lenY, d/lenY]` themselves do not have two
unit-length columns, `lenX` being zero. -/
theorem rotation_formula_fails_on_collapsed_axis :
    NoSkew (collapsedX : Matrix ℝ) ∧
    (apply Real.sqrt keepMatrix
      ((apply Real.sqrt keepMatrix
          (constructor turnedSprite ScaleArg.undefined)).withWorldTransform
        collapsedX)).uniforms.rotation = ⟨0, 1, -1, 0⟩ ∧
    (normalizedBasis Real.sqrt (collapsedX : Matrix ℝ)).m2 = 0 ∧
    (normalizedBasis Real.sqrt (collapsedX : Matrix ℝ)).m3 = 1 ∧
    ¬ UnitColumns (normalizedBasis Real.sqrt (collapsedX : Matrix ℝ)) := by
  have hq : extractRotation Real.sqrt (quarterTurn : Matrix ℝ) = some ⟨0, 1, -1, 0⟩ := by
    simp [extractRotation, normalizedBasis, quarterTurn]
  have hc : extractRotation Real.sqrt (collapsedX : Matrix ℝ) = none := by
    simp [extractRotation, collapsedX]
  refine ⟨by simp [NoSkew, collapsedX], ?_, by simp [normalizedBasis, collapsedX],
    by simp [normalizedBasis, collapsedX], by simp [UnitColumns, normalizedBasis, collapsedX]⟩
  have h1 : (apply Real.sqrt keepMatrix
      (constructor turnedSprite ScaleArg.undefined)).uniforms.rotation = ⟨0, 1, -1, 0⟩ :=
    apply_rotation_of_some Real.sqrt keepMatrix _ _ hq
  rw [← h1]
  exact apply_rotation_of_none Real.sqrt keepMatrix _ hc

/-- C10. Normalisation removes positive scale and keeps orientation: with both basis
vectors of `(a, b, c, d)` non-zero and `kx, ky > 0`, `apply` derives the same rotation
from `(kx*a, kx*b, ky*c, ky*d)` as from `(a, b, c, d)`; for `sx, sy > 0` the transform
`(sx cos t, sx sin t, -sy sin t, sy cos t)` gives `[cos t, sin t, -sin t, cos t]`; and
deriving the rotation again from a derived rotation returns it unchanged. -/
theorem apply_rotation_scale_invariant (csm : Matrix ℝ → Sprite ℝ Tex → Matrix ℝ)
    (st : DisplacementFilter ℝ Tex) (a b c d tx ty kx ky sx sy t : ℝ)
    (hx : a * a + b * b ≠ 0) (hy : c * c + d * d ≠ 0)
    (hkx : 0 < kx) (hky : 0 < ky) (hsx : 0 < sx) (hsy : 0 < sy) :
    (apply Real.sqrt csm
        (st.withWorldTransform ⟨kx * a, kx * b, ky * c, ky * d, tx, ty⟩)).uniforms.rotation
      = (apply Real.sqrt csm (st.withWorldTransform ⟨a, b, c, d, tx, ty⟩)).uniforms.rotation ∧
    (apply Real.sqrt csm
        (st.withWorldTransform
          ⟨sx * Real.cos t, sx * Real.sin t, -sy * Real.sin t, sy * Real.cos t,
            tx, ty⟩)).uniforms.rotation
      = ⟨Real.cos t, Real.sin t, -Real.sin t, Real.cos t⟩ ∧
    (apply Real.sqrt csm
        (st.withWorldTransform
          ⟨(apply Real.sqrt csm (st.withWorldTransform ⟨a, b, c, d, tx, ty⟩)).uniforms.rotation.m0,
           (apply Real.sqrt csm (st.withWorldTransform ⟨a, b, c, d, tx, ty⟩)).uniforms.rotation.m1,
           (apply Real.sqrt csm (st.withWorldTransform ⟨a, b, c, d, tx, ty⟩)).uniforms.rotation.m2,
           (apply Real.sqrt csm (st.withWorldTransform ⟨a, b, c, d, tx, ty⟩)).uniforms.rotation.m3,
           tx, ty⟩)).uniforms.rotation
      = (apply Real.sqrt csm (st.withWorldTransform ⟨a, b, c, d, tx, ty⟩)).uniforms.rotation := by
  have hbase := rotation_of_nonzero csm st ⟨a, b, c, d, tx, ty⟩ hx hy
  refine ⟨?_, ?_, ?_⟩
  · have hx2 : (kx * a) * (kx * a) + (kx * b) * (kx * b) ≠ 0 := by
      rw [scaled_sumsq]; exact mul_ne_zero (mul_self_ne_zero.mpr hkx.ne.symm) hx
    have hy2 : (ky * c) * (ky * c) + (ky * d) * (ky * d) ≠ 0 := by
      rw [scaled_sumsq]; exact mul_ne_zero (mul_self_ne_zero.mpr hky.ne.symm) hy
    rw [hbase, rotation_of_nonzero csm st ⟨kx * a, kx * b, ky * c, ky * d, tx, ty⟩ hx2 hy2]
    simp only [normalizedBasis]
    rw [sqrt_scaled_sumsq kx a b hkx, sqrt_scaled_sumsq ky c d hky]
    have h1 := sqrt_ne_zero_of_ne_zero (sumsq_nonneg a b) hx
    have h2 := sqrt_ne_zero_of_ne_zero (sumsq_nonneg c d) hy
    rw [mul_div_mul_left _ _ hkx.ne.symm, mul_div_mul_left _ _ hkx.ne.symm,
      mul_div_mul_left _ _ hky.ne.symm, mul_div_mul_left _ _ hky.ne.symm]
  · have e1 : (sx * Real.cos t) * (sx * Real.cos t) + (sx * Real.sin t) * (sx * Real.sin t)
        = sx * sx := by
      have := Real.cos_sq_add_sin_sq t
      nlinarith
    have e2 : (-sy * Real.sin t) * (-sy * Real.sin t) + (sy * Real.cos t) * (sy * Real.cos t)
        = sy * sy := by
      have := Real.cos_sq_add_sin_sq t
      nlinarith
    have hx2 : (sx * Real.cos t) * (sx * Real.cos t) + (sx * Real.sin t) * (sx * Real.sin t)
        ≠ 0 := by rw [e1]; exact mul_self_ne_zero.mpr hsx.ne.symm
    have hy2 : (-sy * Real.sin t) * (-sy * Real.sin t) + (sy * Real.cos t) * (sy * Real.cos t)
        ≠ 0 := by rw [e2]; exact mul_self_ne_zero.mpr hsy.ne.symm
    rw [rotation_of_nonzero csm st
      ⟨sx * Real.cos t, sx * Real.sin t, -sy * Real.sin t, sy * Real.cos t, tx, ty⟩ hx2 hy2]
    simp only [normalizedBasis]
    rw [e1, e2, Real.sqrt_mul_self hsx.le, Real.sqrt_mul_self hsy.le]
    have h1 : sx ≠ 0 := hsx.ne.symm
    have h2 : sy ≠ 0 := hsy.ne.symm
    ext
    · simp only; field_simp
    · simp only; field_simp
    · simp only; field_simp; ring
    · simp only; field_simp
  · have hu := unitColumns_normalizedBasis ⟨a, b, c, d, tx, ty⟩ hx hy
    rw [hbase]
    rw [hbase] at *
    obtain ⟨u1, u2⟩ := hu
    have u1' : (normalizedBasis Real.sqrt ⟨a, b, c, d, tx, ty⟩).m0
          * (normalizedBasis Real.sqrt ⟨a, b, c, d, tx, ty⟩).m0
        + (normalizedBasis Real.sqrt ⟨a, b, c, d, tx, ty⟩).m1
          * (normalizedBasis Real.sqrt ⟨a, b, c, d, tx, ty⟩).m1 = 1 := by
      rw [← u1]; ring
    have u2' : (normalizedBasis Real.sqrt ⟨a, b, c, d, tx, ty⟩).m2
          * (normalizedBasis Real.sqrt ⟨a, b, c, d, tx, ty⟩).m2
        + (normalizedBasis Real.sqrt ⟨a, b, c, d, tx, ty⟩).m3
          * (normalizedBasis Real.sqrt ⟨a, b, c, d, tx, ty⟩).m3 = 1 := by
      rw [← u2]; ring
    rw [rotation_of_nonzero csm st _ (by rw [u1']; exact one_ne_zero)
      (by rw [u2']; exact one_ne_zero)]
    ext
    · simp only [normalizedBasis] at u1' ⊢; rw [u1', Real.sqrt_one, div_one]
    · simp only [normalizedBasis] at u1' ⊢; rw [u1', Real.sqrt_one, div_one]
    · simp only [normalizedBasis] at u2' ⊢; rw [u2', Real.sqrt_one, div_one]
    · simp only [normalizedBasis] at u2' ⊢; rw [u2', Real.sqrt_one, div_one]

end DisplacementFilter

namespace DisplacementFilter

open Example

/-- Witness for C10: basis vectors `(3, 4)` and `(0, 1)` scaled by `2` and `3`. -/
theorem apply_rotation_scale_invariant_witness :
    ((3 : ℝ) * 3 + 4 * 4 ≠ 0) ∧ ((0 : ℝ) * 0 + 1 * 1 ≠ 0) ∧
    ((0 : ℝ) < 2) ∧ ((0 : ℝ) < 3) ∧ ((0 : ℝ) < 1) ∧
    (apply Real.sqrt keepMatrix
        ((constructor turnedSprite ScaleArg.undefined).withWorldTransform
          ⟨2 * 3, 2 * 4, 3 * 0, 3 * 1, 0, 0⟩)).uniforms.rotation
      = (apply Real.sqrt keepMatrix
        ((constructor turnedSprite ScaleArg.undefined).withWorldTransform
          ⟨3, 4, 0, 1, 0, 0⟩)).uniforms.rotation :=
  ⟨by norm_num, by norm_num, by norm_num, by norm_num, by norm_num,
   (apply_rotation_scale_invariant keepMatrix
      (constructor turnedSprite ScaleArg.undefined) 3 4 0 1 0 0 2 3 1 1 0
      (by norm_num) (by norm_num) (by norm_num) (by norm_num)
      (by norm_num) (by norm_num)).1⟩

end DisplacementFilter

/-! ## Construction and scale bookkeeping -/

namespace DisplacementFilter

variable {F : Type} [LinearOrderedField F] {Tex : Type}

/-- C6. Built with the scale argument `undefined` or `null`, the filter's configured
scale is `(20, 20)`; built with a number `s` (zero included) it is `(s, s)`. -/
theorem constructor_default_scale (sprite : Sprite F Tex) (s : F) :
    (constructor sprite ScaleArg.undefined).scale = ⟨20, 20⟩ ∧
    (constructor sprite ScaleArg.null).scale = ⟨20, 20⟩ ∧
    (constructor sprite (ScaleArg.number s)).scale = ⟨s, s⟩ ∧
    (constructor sprite (ScaleArg.number 0)).scale = ⟨0, 0⟩ :=
  ⟨rfl, rfl, rfl, rfl⟩

/-- C8. Right after construction, for every sprite and scale argument: the sprite's
`renderable` flag is false, the `filterMatrix` uniform is the identity matrix, the
scale uniform is `(1, 1)`, the rotation uniform is `[1, 0, 0, 1]`, and the `map`
getter returns the sprite's texture. -/
theorem constructor_postcondition (sprite : Sprite F Tex) (scale : ScaleArg F) :
    (constructor sprite scale).maskSprite.renderable = false ∧
    (constructor sprite scale).uniforms.filterMatrix = ⟨1, 0, 0, 1, 0, 0⟩ ∧
    (constructor sprite scale).uniforms.scale = ⟨1, 1⟩ ∧
    (constructor sprite scale).uniforms.rotation = ⟨1, 0, 0, 1⟩ ∧
    (constructor sprite scale).map = sprite._texture :=
  ⟨rfl, rfl, rfl, rfl, rfl⟩

/-- C9. After `apply` the scale uniform carries the configured scale and the
configured scale is unchanged; the first `apply` after construction replaces the
initial `(1, 1)` uniform with the configured scale; and a scale `p` assigned between
frames is the one the next `apply` writes. -/
theorem apply_propagates_scale (sqrt : F → F) (csm : Matrix F → Sprite F Tex → Matrix F)
    (st : DisplacementFilter F Tex) (sprite : Sprite F Tex) (arg : ScaleArg F) (p : Point F) :
    (apply sqrt csm st).uniforms.scale.x = st.scale.x ∧
    (apply sqrt csm st).uniforms.scale.y = st.scale.y ∧
    (apply sqrt csm st).scale = st.scale ∧
    (constructor sprite arg).uniforms.scale = ⟨1, 1⟩ ∧
    (apply sqrt csm (constructor sprite arg)).uniforms.scale = (constructor sprite arg).scale ∧
    (apply sqrt csm { st with scale := p }).uniforms.scale = p := by
  have key : ∀ s : DisplacementFilter F Tex,
      (apply sqrt csm s).uniforms.scale = ⟨s.scale.x, s.scale.y⟩ ∧
      (apply sqrt csm s).scale = s.scale := by
    intro s
    cases h : extractRotation sqrt s.maskSprite.worldTransform <;>
      simp only [apply, h, and_self]
  refine ⟨?_, ?_, (key st).2, rfl, (key _).1, (key _).1⟩
  · rw [(key st).1]
  · rw [(key st).1]

end DisplacementFilter

/-! ## The fragment shader -/

namespace Fragment

open GLSL

variable {F : Type} [LinearOrderedField F]

theorem coeff_eq_one (night : Vec4 F) (h : 0.2 ≤ night.x) : coeff night = 1 := by
  have h5 : (0.2 : F) * 5.0 = 1 := by norm_num
  have h1 : (1.0 : F) = 1 := by norm_num
  have hle : (1 : F) ≤ night.x * 5.0 := by
    rw [← h5]
    exact mul_le_mul_of_nonneg_right h (by norm_num)
  unfold coeff
  rw [h1]
  exact min_eq_left hle

/-- C3. When the night texture's red channel at `vTextureCoord` is at least `0.2`,
the coefficient `min(1, 5*r)` is `1`, the displacement offset is exactly `(0, 0)`, the
coordinate at which the input is sampled is the clamp of the undisplaced
`vTextureCoord`, and `gl_FragColor` is the input texture read there. -/
theorem full_night_suppression (uSampler mapSampler nightTexture : Vec2 F → Vec4 F)
    (scale : Vec2 F) (rotation : Mat2 F) (inputSize inputClamp : Vec4 F)
    (vFilterCoord vTextureCoord : Vec2 F) (h : 0.2 ≤ (nightTexture vTextureCoord).x) :
    coeff (nightTexture vTextureCoord) = 1 ∧
    displacement scale inputSize rotation (mapSampler vFilterCoord)
        (nightTexture vTextureCoord) = ⟨0, 0⟩ ∧
    sampleCoord scale inputSize inputClamp rotation (mapSampler vFilterCoord)
        (nightTexture vTextureCoord) vTextureCoord
      = ⟨clamp vTextureCoord.x inputClamp.x inputClamp.z,
         clamp vTextureCoord.y inputClamp.y inputClamp.w⟩ ∧
    main uSampler mapSampler nightTexture scale rotation inputSize inputClamp
        vFilterCoord vTextureCoord
      = uSampler ⟨clamp vTextureCoord.x inputClamp.x inputClamp.z,
         clamp vTextureCoord.y inputClamp.y inputClamp.w⟩ := by
  have hc := coeff_eq_one (nightTexture vTextureCoord) h
  have h1 : (1.0 : F) = 1 := by norm_num
  have hd : displacement scale inputSize rotation (mapSampler vFilterCoord)
      (nightTexture vTextureCoord) = ⟨0, 0⟩ := by
    simp only [displacement, offset, hc, h1, sub_self, mul_zero]
  have hs : sampleCoord scale inputSize inputClamp rotation (mapSampler vFilterCoord)
      (nightTexture vTextureCoord) vTextureCoord
      = ⟨clamp vTextureCoord.x inputClamp.x inputClamp.z,
         clamp vTextureCoord.y inputClamp.y inputClamp.w⟩ := by
    simp only [sampleCoord, hd, add_zero]
  refine ⟨hc, hd, hs, ?_⟩
  simp only [main, hs]

/-- Witness for C3: a night texture whose red channel is `0.5` everywhere. -/
theorem full_night_suppression_witness :
    ((0.2 : ℚ) ≤ ((fun _ => ⟨0.5, 0, 0, 1⟩ : Vec2 ℚ → Vec4 ℚ) ⟨0, 0⟩).x) ∧
    displacement (⟨20, 20⟩ : Vec2 ℚ) ⟨0, 0, 1, 1⟩ ⟨1, 0, 0, 1⟩
      ((fun _ => ⟨1, 1, 0, 1⟩ : Vec2 ℚ → Vec4 ℚ) ⟨0, 0⟩)
      ((fun _ => ⟨0.5, 0, 0, 1⟩ : Vec2 ℚ → Vec4 ℚ) ⟨0, 0⟩) = ⟨0, 0⟩ :=
  ⟨by norm_num,
   (full_night_suppression (fun _ => ⟨0, 0, 0, 0⟩) (fun _ => ⟨1, 1, 0, 1⟩)
      (fun _ => ⟨0.5, 0, 0, 1⟩) (⟨20, 20⟩ : Vec2 ℚ) ⟨1, 0, 0, 1⟩ ⟨0, 0, 1, 1⟩
      ⟨0, 0, 1, 1⟩ ⟨0, 0⟩ ⟨0, 0⟩ (by norm_num)).2.1⟩

theorem coeff_red_zero (g b al : F) : coeff (⟨0, g, b, al⟩ : Vec4 F) = 0 := by
  have h1 : (1.0 : F) = 1 := by norm_num
  simp only [coeff, zero_mul, h1]
  exact min_eq_right zero_le_one

/-- C4. With the night red channel equal to `0` the coefficient is `0` and the
displacement offset is `scale * inputSize.zw * (rotation * m)` component-wise, `m`
being the centred map sample `map.xy - 0.5`; multiplying the scale by `k` multiplies
the offset by `k`, multiplying `m` by `k` multiplies the offset by `k`, and the offset
is additive in `m`. -/
theorem offset_linear_without_night (scale : Vec2 F) (inputSize : Vec4 F)
    (rotation : Mat2 F) (mapSample : Vec4 F) (g b al k : F) (m m1 m2 : Vec2 F) :
    coeff (⟨0, g, b, al⟩ : Vec4 F) = 0 ∧
    displacement scale inputSize rotation mapSample ⟨0, g, b, al⟩
      = ⟨scale.x * inputSize.z
            * (rotation.mulVec ⟨mapSample.x - 0.5, mapSample.y - 0.5⟩).x,
         scale.y * inputSize.w
            * (rotation.mulVec ⟨mapSample.x - 0.5, mapSample.y - 0.5⟩).y⟩ ∧
    offset ⟨k * scale.x, k * scale.y⟩ inputSize rotation m (coeff ⟨0, g, b, al⟩)
      = ⟨k * (offset scale inputSize rotation m (coeff ⟨0, g, b, al⟩)).x,
         k * (offset scale inputSize rotation m (coeff ⟨0, g, b, al⟩)).y⟩ ∧
    offset scale inputSize rotation ⟨k * m.x, k * m.y⟩ (coeff ⟨0, g, b, al⟩)
      = ⟨k * (offset scale inputSize rotation m (coeff ⟨0, g, b, al⟩)).x,
         k * (offset scale inputSize rotation m (coeff ⟨0, g, b, al⟩)).y⟩ ∧
    offset scale inputSize rotation ⟨m1.x + m2.x, m1.y + m2.y⟩ (coeff ⟨0, g, b, al⟩)
      = ⟨(offset scale inputSize rotation m1 (coeff ⟨0, g, b, al⟩)).x
            + (offset scale inputSize rotation m2 (coeff ⟨0, g, b, al⟩)).x,
         (offset scale inputSize rotation m1 (coeff ⟨0, g, b, al⟩)).y
            + (offset scale inputSize rotation m2 (coeff ⟨0, g, b, al⟩)).y⟩ := by
  have hc := coeff_red_zero g b al
  have h1 : (1.0 : F) = 1 := by norm_num
  rw [hc]
  refine ⟨rfl, ?_, ?_, ?_, ?_⟩
  · simp only [displacement, centre, offset, hc, h1, sub_zero, mul_one]
  · simp only [offset, Mat2.mulVec, h1, sub_zero, mul_one]
    ext <;> simp only <;> ring
  · simp only [offset, Mat2.mulVec, h1, sub_zero, mul_one]
    ext <;> simp only <;> ring
  · simp only [offset, Mat2.mulVec, h1, sub_zero, mul_one]
    ext <;> simp only <;> ring

theorem clamp_le_max (x lo hi : F) : clamp x lo hi ≤ hi := min_le_right _ _

theorem min_le_clamp (x lo hi : F) (h : lo ≤ hi) : lo ≤ clamp x lo hi :=
  le_min (le_max_right _ _) h

/-- C5. For every texture coordinate, map sample, scale, rotation, inverse input size
and night value, and every clamp rectangle `inputClamp = (minX, minY, maxX, maxY)`
(`minX <= maxX`, `minY <= maxY`), the coordinate at which the shader samples the input,
`min(max(v, lo), hi)` per component, lies inside the rectangle:
`minX <= x <= maxX` and `minY <= y <= maxY`. -/
theorem sample_inside_clamp (scale : Vec2 F) (inputSize inputClamp : Vec4 F)
    (rotation : Mat2 F) (mapSample night : Vec4 F) (vTextureCoord : Vec2 F)
    (hX : inputClamp.x ≤ inputClamp.z) (hY : inputClamp.y ≤ inputClamp.w) :
    inputClamp.x
      ≤ (sampleCoord scale inputSize inputClamp rotation mapSample night vTextureCoord).x ∧
    (sampleCoord scale inputSize inputClamp rotation mapSample night vTextureCoord).x
      ≤ inputClamp.z ∧
    inputClamp.y
      ≤ (sampleCoord scale inputSize inputClamp rotation mapSample night vTextureCoord).y ∧
    (sampleCoord scale inputSize inputClamp rotation mapSample night vTextureCoord).y
      ≤ inputClamp.w :=
  ⟨min_le_clamp _ _ _ hX, clamp_le_max _ _ _, min_le_clamp _ _ _ hY, clamp_le_max _ _ _⟩

/-- Witness for C5: the unit square as clamp rectangle and a displacement of `500`,
which is cut back to the upper corner. -/
theorem sample_inside_clamp_witness :
    ((⟨0, 0, 1, 1⟩ : Vec4 ℚ).x ≤ (⟨0, 0, 1, 1⟩ : Vec4 ℚ).z) ∧
    ((⟨0, 0, 1, 1⟩ : Vec4 ℚ).y ≤ (⟨0, 0, 1, 1⟩ : Vec4 ℚ).w) ∧
    (⟨0, 0, 1, 1⟩ : Vec4 ℚ).x
      ≤ (sampleCoord (⟨1000, 1000⟩ : Vec2 ℚ) ⟨0, 0, 1, 1⟩ ⟨0, 0, 1, 1⟩ ⟨1, 0, 0, 1⟩
          ⟨1, 1, 0, 1⟩ ⟨0, 0, 0, 1⟩ ⟨0, 0⟩).x ∧
    (sampleCoord (⟨1000, 1000⟩ : Vec2 ℚ) ⟨0, 0, 1, 1⟩ ⟨0, 0, 1, 1⟩ ⟨1, 0, 0, 1⟩
          ⟨1, 1, 0, 1⟩ ⟨0, 0, 0, 1⟩ ⟨0, 0⟩).x
      ≤ (⟨0, 0, 1, 1⟩ : Vec4 ℚ).z ∧
    (⟨0, 0, 1, 1⟩ : Vec4 ℚ).y
      ≤ (sampleCoord (⟨1000, 1000⟩ : Vec2 ℚ) ⟨0, 0, 1, 1⟩ ⟨0, 0, 1, 1⟩ ⟨1, 0, 0, 1⟩
          ⟨1, 1, 0, 1⟩ ⟨0, 0, 0, 1⟩ ⟨0, 0⟩).y ∧
    (sampleCoord (⟨1000, 1000⟩ : Vec2 ℚ) ⟨0, 0, 1, 1⟩ ⟨0, 0, 1, 1⟩ ⟨1, 0, 0, 1⟩
          ⟨1, 1, 0, 1⟩ ⟨0, 0, 0, 1⟩ ⟨0, 0⟩).y
      ≤ (⟨0, 0, 1, 1⟩ : Vec4 ℚ).w :=
  ⟨by norm_num, by norm_num,
   sample_inside_clamp (⟨1000, 1000⟩ : Vec2 ℚ) ⟨0, 0, 1, 1⟩ ⟨0, 0, 1, 1⟩ ⟨1, 0, 0, 1⟩
      ⟨1, 1, 0, 1⟩ ⟨0, 0, 0, 1⟩ ⟨0, 0⟩ (by norm_num) (by norm_num)⟩

/-- C7 as stated fails. For the red-channel value `-1` the shader's coefficient is
`-5`, while `clamp(5*r, 0, 1)` is `0`; the coefficient is below `0` and the factor
`1 - coeff` is `6`. -/
theorem coeff_negative_red :
    coeff (⟨-1, 0, 0, 1⟩ : Vec4 ℝ) = -5 ∧
    clamp ((⟨-1, 0, 0, 1⟩ : Vec4 ℝ).x * 5) 0 1 = 0 ∧
    coeff (⟨-1, 0, 0, 1⟩ : Vec4 ℝ) ≠ clamp ((⟨-1, 0, 0, 1⟩ : Vec4 ℝ).x * 5) 0 1 ∧
    ¬ (0 ≤ coeff (⟨-1, 0, 0, 1⟩ : Vec4 ℝ)) ∧
    1 - coeff (⟨-1, 0, 0, 1⟩ : Vec4 ℝ) = 6 := by
  have hc : coeff (⟨-1, 0, 0, 1⟩ : Vec4 ℝ) = -5 := by
    unfold coeff
    norm_num
  have hk : clamp ((⟨-1, 0, 0, 1⟩ : Vec4 ℝ).x * 5) 0 1 = 0 := by
    unfold clamp
    norm_num
  rw [hc, hk]
  norm_num

/-- C7, as amended. The coefficient the shader computes is `min(1, 5*r)`, which is
at most `1` for every `r`; for `r >= 0` it equals `clamp(5*r, 0, 1)`, that is
`max(0, min(1, 5*r))`, it lies in `[0, 1]`, and so does the factor `1 - coeff`. -/
theorem coeff_eq_min_and_clamp (night : Vec4 F) :
    coeff night = min 1 (5 * night.x) ∧
    coeff night ≤ 1 ∧
    (0 ≤ night.x →
      coeff night = clamp (5 * night.x) 0 1 ∧
      coeff night = max 0 (min 1 (5 * night.x)) ∧
      0 ≤ coeff night ∧
      0 ≤ 1 - coeff night ∧ 1 - coeff night ≤ 1) := by
  have h1 : (1.0 : F) = 1 := by norm_num
  have h5 : (5.0 : F) = 5 := by norm_num
  have hc : coeff night = min 1 (5 * night.x) := by
    simp only [coeff, h1, h5, mul_comm]
  have hle : coeff night ≤ 1 := by rw [hc]; exact min_le_left _ _
  refine ⟨hc, hle, ?_⟩
  intro h
  have h0 : (0 : F) ≤ 5 * night.x := mul_nonneg (by norm_num) h
  have hnn : (0 : F) ≤ min 1 (5 * night.x) := le_min zero_le_one h0
  refine ⟨?_, ?_, ?_, ?_, ?_⟩
  · rw [hc, clamp, max_eq_left h0, min_comm]
  · rw [hc, max_eq_right hnn]
  · rw [hc]; exact hnn
  · exact sub_nonneg.mpr hle
  · rw [hc]; linarith

/-- Witness for C7: the red-channel value `0.1`, whose coefficient is `0.5`. -/
theorem coeff_eq_min_and_clamp_witness :
    ((0 : ℚ) ≤ (⟨0.1, 0, 0, 1⟩ : Vec4 ℚ).x) ∧
    coeff (⟨0.1, 0, 0, 1⟩ : Vec4 ℚ) = clamp (5 * (⟨0.1, 0, 0, 1⟩ : Vec4 ℚ).x) 0 1 :=
  ⟨by norm_num, ((coeff_eq_min_and_clamp (⟨0.1, 0, 0, 1⟩ : Vec4 ℚ)).2.2 (by norm_num)).1⟩

end Fragment
